import Mathlib

/-!
# Solar-System-Simulation: sphere mesh generation and orbit transforms

A shallow embedding of `generateSphere` and of the per-body model-matrix
blocks of the frame loop in `src/main.cpp`.

Modelling conventions.

* `float` is an arbitrary field `α`; `cos`, `sin`, `sqrt` and the constant
  `pi` are parameters of every definition, so the definitions stay
  computable.  Theorems about trigonometry instantiate them with
  `Real.cos`, `Real.sin`, `Real.sqrt` and `Real.pi`.
* `int` is `Int`.  Signed overflow is undefined behaviour in C++, so the
  embedding describes the runs on which no `int` expression overflows.
* `std::vector<float>` / `std::vector<unsigned int>` are `List α` /
  `List Nat`; `push_back x` is `· ++ [x]`.  The `int` values pushed into the
  index buffer are converted with `Int.toNat`: they are never negative, and on
  overflow-free runs they are below `2^31`, so the conversion to
  `unsigned int` keeps the value.
* A counting loop `for (int j = 0; j < n; ++j)` is `forLoop n.toNat`, a left
  fold of the loop body over `0, 1, …, n-1`; `j <= n` is `forLoop (n+1).toNat`.
-/

namespace SolarSystem

/-! ## Loops -/

/-- The loop `for (int j = 0; j < n; ++j) st = body st j`. -/
def forLoop {σ : Type} (n : Nat) (body : σ → Int → σ) (init : σ) : σ :=
  (List.range n).foldl (fun st j => body st (j : Int)) init

/-! ## `generateSphere` (src/main.cpp, lines 82-125) -/

section Sphere

variable {α : Type} [Field α]

/-- Line 85: `stackAngle = pi / 2 - i * pi / stackCount`. -/
def stackAngle (pi : α) (stackCount i : Int) : α :=
  pi / 2 - (i : α) * pi / (stackCount : α)

/-- Line 90: `sectorAngle = j * 2 * pi / sectorCount` (`j * 2` is an `int` product). -/
def sectorAngle (pi : α) (sectorCount j : Int) : α :=
  ((j * 2 : Int) : α) * pi / (sectorCount : α)

/-- Lines 90-103: the body of the inner vertex loop, for stack `i` and sector `j`;
`xy` and `z` are the values computed by the enclosing stack iteration. -/
def vertexBody (cos sin : α → α) (pi : α) (stackCount sectorCount : Int)
    (xy z : α) (i : Int) (vertices : List α) (j : Int) : List α :=
  let a := sectorAngle pi sectorCount j
  let x := xy * cos a
  let y := xy * sin a
  let s := (j : α) / (sectorCount : α)
  let t := (i : α) / (stackCount : α)
  ((((vertices ++ [x]) ++ [y]) ++ [z]) ++ [s]) ++ [t]

/-- Lines 85-104: the body of the outer vertex loop, for stack `i`. -/
def vertexStack (cos sin : α → α) (pi radius : α) (stackCount sectorCount : Int)
    (vertices : List α) (i : Int) : List α :=
  let a := stackAngle pi stackCount i
  let xy := radius * cos a
  let z := radius * sin a
  forLoop (sectorCount + 1).toNat
    (vertexBody cos sin pi stackCount sectorCount xy z i) vertices

/-- Lines 112-121 and the increment `++k1, ++k2` of line 111: the body of the
inner index loop on the state `(indices, k1, k2)`. -/
def indexBody (stackCount i : Int) (st : List Nat × Int × Int) (_j : Int) :
    List Nat × Int × Int :=
  let indices := st.1
  let k1 := st.2.1
  let k2 := st.2.2
  let indices :=
    if i ≠ 0 then ((indices ++ [k1.toNat]) ++ [k2.toNat]) ++ [(k1 + 1).toNat] else indices
  let indices :=
    if i ≠ stackCount - 1 then
      ((indices ++ [(k1 + 1).toNat]) ++ [k2.toNat]) ++ [(k2 + 1).toNat]
    else indices
  (indices, k1 + 1, k2 + 1)

/-- Lines 108-122: the body of the outer index loop, for stack `i`. -/
def indexStack (stackCount sectorCount : Int) (indices : List Nat) (i : Int) : List Nat :=
  let k1 := i * (sectorCount + 1)
  let k2 := k1 + sectorCount + 1
  (forLoop sectorCount.toNat (indexBody stackCount i) (indices, k1, k2)).1

/-- The function `generateSphere`: the two buffers are passed in and returned. -/
def generateSphere (cos sin : α → α) (pi : α) (vertices : List α) (indices : List Nat)
    (radius : α) (stackCount sectorCount : Int) : List α × List Nat :=
  let vertices := forLoop (stackCount + 1).toNat
    (vertexStack cos sin pi radius stackCount sectorCount) vertices
  let indices := forLoop stackCount.toNat (indexStack stackCount sectorCount) indices
  (vertices, indices)

/-- The triangles a `GL_TRIANGLES` draw call (line 267) reads from an index
buffer: consecutive triples of indices. -/
def triangles : List Nat → List (Nat × Nat × Nat)
  | a :: b :: c :: rest => (a, b, c) :: triangles rest
  | _ => []

/-- The vertex row (stack ring) a vertex offset belongs to, rows having
`sectorCount + 1` vertices each. -/
def vertexRow (sectorCount : Int) (k : Nat) : Nat := k / (sectorCount + 1).toNat

/-! ### What one pass of the loop bodies appends, as a function of `(i, j)` -/

/-- The five floats of the vertex for stack `i` and sector `j`. -/
def vertexBlock (cos sin : α → α) (pi radius : α) (stackCount sectorCount : Int)
    (i j : Nat) : List α :=
  [radius * cos (stackAngle pi stackCount i) * cos (sectorAngle pi sectorCount j),
   radius * cos (stackAngle pi stackCount i) * sin (sectorAngle pi sectorCount j),
   radius * sin (stackAngle pi stackCount i),
   (j : α) / (sectorCount : α),
   (i : α) / (stackCount : α)]

/-- The indices emitted for stack `i` and sector `j`. -/
def indexBlock (stackCount sectorCount : Int) (i j : Nat) : List Nat :=
  (if (i : Int) ≠ 0 then
      [((i : Int) * (sectorCount + 1) + j).toNat,
       ((i : Int) * (sectorCount + 1) + sectorCount + 1 + j).toNat,
       ((i : Int) * (sectorCount + 1) + j + 1).toNat]
    else []) ++
  (if (i : Int) ≠ stackCount - 1 then
      [((i : Int) * (sectorCount + 1) + j + 1).toNat,
       ((i : Int) * (sectorCount + 1) + sectorCount + 1 + j).toNat,
       ((i : Int) * (sectorCount + 1) + sectorCount + 1 + j + 1).toNat]
    else [])

/-- The triangles emitted for stack `i` and sector `j`. -/
def triBlock (stackCount sectorCount : Int) (i j : Nat) : List (Nat × Nat × Nat) :=
  (if (i : Int) ≠ 0 then
      [(((i : Int) * (sectorCount + 1) + j).toNat,
        ((i : Int) * (sectorCount + 1) + sectorCount + 1 + j).toNat,
        ((i : Int) * (sectorCount + 1) + j + 1).toNat)]
    else []) ++
  (if (i : Int) ≠ stackCount - 1 then
      [(((i : Int) * (sectorCount + 1) + j + 1).toNat,
        ((i : Int) * (sectorCount + 1) + sectorCount + 1 + j).toNat,
        ((i : Int) * (sectorCount + 1) + sectorCount + 1 + j + 1).toNat)]
    else [])

end Sphere

/-! ## The `glm` vector and matrix operations used by the frame loop -/

section Glm

variable {α : Type} [Field α]

/-- A `glm::vec3`. -/
structure Vec3 (α : Type) where
  x : α
  y : α
  z : α

/-- A `glm::vec4`. -/
structure Vec4 (α : Type) where
  x : α
  y : α
  z : α
  w : α

/-- A `glm::mat4`, stored column by column (`m[k]` is the field `ck`). -/
structure Mat4 (α : Type) where
  c0 : Vec4 α
  c1 : Vec4 α
  c2 : Vec4 α
  c3 : Vec4 α

/-- `v * s` for a `vec4` and a scalar. -/
def Vec4.scale (v : Vec4 α) (s : α) : Vec4 α := ⟨v.x * s, v.y * s, v.z * s, v.w * s⟩

/-- `a + b` for two `vec4`. -/
def Vec4.add (a b : Vec4 α) : Vec4 α := ⟨a.x + b.x, a.y + b.y, a.z + b.z, a.w + b.w⟩

/-- `glm::vec4(v, w)`. -/
def vec4 (v : Vec3 α) (w : α) : Vec4 α := ⟨v.x, v.y, v.z, w⟩

/-- Modelled from the spec: the glm header library is not part of the sources;
`glm::mat4(1.0f)` is the identity matrix the evaluator starts from. -/
def mat4One : Mat4 α := ⟨⟨1, 0, 0, 0⟩, ⟨0, 1, 0, 0⟩, ⟨0, 0, 1, 0⟩, ⟨0, 0, 0, 1⟩⟩

/-- Modelled from the spec: the glm header library is not part of the sources;
`glm::normalize(v)` is `v * inversesqrt(dot(v, v))`, the unit vector along `v`. -/
def normalize (sqrt : α → α) (v : Vec3 α) : Vec3 α :=
  let d := v.x * v.x + v.y * v.y + v.z * v.z
  let inv := 1 / sqrt d
  ⟨v.x * inv, v.y * inv, v.z * inv⟩

/-- Modelled from the spec: the glm header library is not part of the sources;
`glm::rotate(m, angle, v)` is `m` times the rotation by `angle` radians about
the axis `v`, applied in the local frame of `m`. -/
def rotate (cos sin sqrt : α → α) (m : Mat4 α) (angle : α) (v : Vec3 α) : Mat4 α :=
  let c := cos angle
  let s := sin angle
  let axis := normalize sqrt v
  let temp : Vec3 α := ⟨(1 - c) * axis.x, (1 - c) * axis.y, (1 - c) * axis.z⟩
  let r00 := c + temp.x * axis.x
  let r01 := temp.x * axis.y + s * axis.z
  let r02 := temp.x * axis.z - s * axis.y
  let r10 := temp.y * axis.x - s * axis.z
  let r11 := c + temp.y * axis.y
  let r12 := temp.y * axis.z + s * axis.x
  let r20 := temp.z * axis.x + s * axis.y
  let r21 := temp.z * axis.y - s * axis.x
  let r22 := c + temp.z * axis.z
  ⟨((m.c0.scale r00).add (m.c1.scale r01)).add (m.c2.scale r02),
   ((m.c0.scale r10).add (m.c1.scale r11)).add (m.c2.scale r12),
   ((m.c0.scale r20).add (m.c1.scale r21)).add (m.c2.scale r22),
   m.c3⟩

/-- Modelled from the spec: the glm header library is not part of the sources;
`glm::translate(m, v)` is `m` times the translation by `v`, applied in the
local frame of `m`. -/
def translate (m : Mat4 α) (v : Vec3 α) : Mat4 α :=
  ⟨m.c0, m.c1, m.c2,
   (((m.c0.scale v.x).add (m.c1.scale v.y)).add (m.c2.scale v.z)).add m.c3⟩

/-- Modelled from the spec: the glm header library is not part of the sources;
`glm::scale(m, v)` is `m` times the axis scaling by `v`. -/
def scale (m : Mat4 α) (v : Vec3 α) : Mat4 α :=
  ⟨m.c0.scale v.x, m.c1.scale v.y, m.c2.scale v.z, m.c3⟩

/-- Modelled from the spec: the glm header library is not part of the sources;
`m * v` is the matrix-vector product. -/
def Mat4.mulVec (m : Mat4 α) (v : Vec4 α) : Vec4 α :=
  (((m.c0.scale v.x).add (m.c1.scale v.y)).add (m.c2.scale v.z)).add (m.c3.scale v.w)

/-- Modelled from the spec: the glm header library is not part of the sources;
`m1 * m2` is the matrix product, column `k` of the result being `m1 * m2[k]`. -/
def Mat4.mul (m1 m2 : Mat4 α) : Mat4 α :=
  ⟨m1.mulVec m2.c0, m1.mulVec m2.c1, m1.mulVec m2.c2, m1.mulVec m2.c3⟩

/-- The world position of a body's local origin: `model * vec4(aPos, 1.0f)` of
the vertex shader (line 26) at `aPos = (0, 0, 0)`. -/
def originImage (model : Mat4 α) : Vec4 α := model.mulVec (vec4 ⟨0, 0, 0⟩ 1)

end Glm

/-! ## The per-body blocks of the frame loop (src/main.cpp, lines 269-354)

`t` is the value of `(float)glfwGetTime()` of the frame. -/

section Frame

variable {α : Type} [Field α]

/-- The shape every planet block shares: identity, rotate about the Y axis by
`t * speed`, translate by `(orbitRadius, 0, 0)`, scale by `localScale`. -/
def orbitModel (cos sin sqrt : α → α) (t speed orbitRadius : α) (localScale : Vec3 α) :
    Mat4 α :=
  let model := mat4One
  let model := rotate cos sin sqrt model (t * speed) ⟨0, 1, 0⟩
  let model := translate model ⟨orbitRadius, 0, 0⟩
  scale model localScale

/-- Lines 271-274. -/
def mercuryModel (cos sin sqrt : α → α) (t : α) : Mat4 α :=
  let model := mat4One
  let model := rotate cos sin sqrt model (t * 4.0) ⟨0.0, 1.0, 0.0⟩
  let model := translate model ⟨1.2, 0.0, 0.0⟩
  scale model ⟨0.2, 0.2, 0.2⟩

/-- Lines 280-283. -/
def venusModel (cos sin sqrt : α → α) (t : α) : Mat4 α :=
  let model := mat4One
  let model := rotate cos sin sqrt model (t * 1.5) ⟨0.0, 1.0, 0.0⟩
  let model := translate model ⟨2.0, 0.0, 0.0⟩
  scale model ⟨0.3, 0.3, 0.3⟩

/-- Lines 289-292. -/
def earthModel (cos sin sqrt : α → α) (t : α) : Mat4 α :=
  let model := mat4One
  let model := rotate cos sin sqrt model (t * 1.0) ⟨0.0, 1.0, 0.0⟩
  let model := translate model ⟨3.0, 0.0, 0.0⟩
  scale model ⟨0.4, 0.4, 0.4⟩

/-- Lines 298-306: `model` still holds Earth's matrix of lines 289-292. -/
def moonModel (cos sin sqrt : α → α) (t : α) : Mat4 α :=
  let model := earthModel cos sin sqrt t
  let moonModel := mat4One
  let moonModel := rotate cos sin sqrt moonModel (t * 2.0) ⟨0.0, 1.0, 0.0⟩
  let moonModel := translate moonModel ⟨1.5, 0.0, 0.0⟩
  let moonModel := model.mul moonModel
  scale moonModel ⟨0.3, 0.3, 0.3⟩

/-- Lines 313-316. -/
def marsModel (cos sin sqrt : α → α) (t : α) : Mat4 α :=
  let model := mat4One
  let model := rotate cos sin sqrt model (t * 0.8) ⟨0.0, 1.0, 0.0⟩
  let model := translate model ⟨4.0, 0.0, 0.0⟩
  scale model ⟨0.3, 0.3, 0.3⟩

/-- Lines 322-325. -/
def jupiterModel (cos sin sqrt : α → α) (t : α) : Mat4 α :=
  let model := mat4One
  let model := rotate cos sin sqrt model (t * 0.4) ⟨0.0, 1.0, 0.0⟩
  let model := translate model ⟨5.0, 0.0, 0.0⟩
  scale model ⟨0.7, 0.7, 0.7⟩

/-- Lines 331-334. -/
def saturnModel (cos sin sqrt : α → α) (t : α) : Mat4 α :=
  let model := mat4One
  let model := rotate cos sin sqrt model (t * 0.3) ⟨0.0, 1.0, 0.0⟩
  let model := translate model ⟨6.0, 0.0, 0.0⟩
  scale model ⟨0.4, 0.4, 0.4⟩

/-- Lines 340-343. -/
def uranusModel (cos sin sqrt : α → α) (t : α) : Mat4 α :=
  let model := mat4One
  let model := rotate cos sin sqrt model (t * 0.2) ⟨0.0, 1.0, 0.0⟩
  let model := translate model ⟨7.0, 0.0, 0.0⟩
  scale model ⟨0.35, 0.35, 0.35⟩

/-- Lines 349-352. -/
def neptuneModel (cos sin sqrt : α → α) (t : α) : Mat4 α :=
  let model := mat4One
  let model := rotate cos sin sqrt model (t * 0.1) ⟨0.0, 1.0, 0.0⟩
  let model := translate model ⟨8.0, 0.0, 0.0⟩
  scale model ⟨0.3, 0.3, 0.3⟩

end Frame

/-! ## Closed forms of the loops -/

section Lemmas

variable {α : Type} [Field α]

theorem forLoop_zero {σ : Type} (body : σ → Int → σ) (init : σ) :
    forLoop 0 body init = init := rfl

theorem forLoop_succ {σ : Type} (n : Nat) (body : σ → Int → σ) (init : σ) :
    forLoop (n + 1) body init = body (forLoop n body init) (n : Int) := by
  simp [forLoop, List.range_succ]

/-- A loop whose body only appends a block computed from the counter appends
the blocks in order. -/
theorem forLoop_append {β : Type} (n : Nat) (body : List β → Int → List β)
    (f : Nat → List β) (h : ∀ (l : List β) (j : Nat), body l (j : Int) = l ++ f j)
    (init : List β) :
    forLoop n body init = init ++ (List.range n).flatMap f := by
  induction n with
  | zero => simp [forLoop_zero]
  | succ n ih => rw [forLoop_succ, ih, h, List.range_succ]; simp

theorem vertexStack_eq (cos sin : α → α) (pi radius : α) (stackCount sectorCount : Int)
    (vertices : List α) (i : Nat) :
    vertexStack cos sin pi radius stackCount sectorCount vertices i =
      vertices ++ (List.range (sectorCount + 1).toNat).flatMap
        (vertexBlock cos sin pi radius stackCount sectorCount i) := by
  unfold vertexStack
  apply forLoop_append
  intro l j
  simp [vertexBody, vertexBlock]

theorem indexLoop_eq (stackCount sectorCount : Int) (i : Nat) (indices : List Nat) (n : Nat) :
    forLoop n (indexBody stackCount i)
        (indices, (i : Int) * (sectorCount + 1), (i : Int) * (sectorCount + 1) + sectorCount + 1) =
      (indices ++ (List.range n).flatMap (indexBlock stackCount sectorCount i),
       (i : Int) * (sectorCount + 1) + n,
       (i : Int) * (sectorCount + 1) + sectorCount + 1 + n) := by
  induction n with
  | zero => simp [forLoop_zero]
  | succ n ih =>
    rw [forLoop_succ, ih, List.range_succ]
    simp only [indexBody, indexBlock, List.flatMap_append, List.flatMap_singleton]
    refine Prod.ext ?_ (Prod.ext ?_ ?_)
    · by_cases h0 : (i : Int) ≠ 0 <;> by_cases h1 : (i : Int) ≠ stackCount - 1 <;>
        simp [h0, h1]
    · simp; ring
    · simp; ring

theorem indexStack_eq (stackCount sectorCount : Int) (indices : List Nat) (i : Nat) :
    indexStack stackCount sectorCount indices i =
      indices ++ (List.range sectorCount.toNat).flatMap (indexBlock stackCount sectorCount i) := by
  unfold indexStack
  simp only []
  rw [indexLoop_eq]

/-- Closed form of `generateSphere`: both buffers are extended by the blocks
of all `(i, j)` in loop order. -/
theorem generateSphere_eq (cos sin : α → α) (pi : α) (vertices : List α) (indices : List Nat)
    (radius : α) (stackCount sectorCount : Int) :
    generateSphere cos sin pi vertices indices radius stackCount sectorCount =
      (vertices ++ (List.range (stackCount + 1).toNat).flatMap (fun i =>
          (List.range (sectorCount + 1).toNat).flatMap
            (vertexBlock cos sin pi radius stackCount sectorCount i)),
       indices ++ (List.range stackCount.toNat).flatMap (fun i =>
          (List.range sectorCount.toNat).flatMap (indexBlock stackCount sectorCount i))) := by
  unfold generateSphere
  refine Prod.ext ?_ ?_
  · exact forLoop_append _ _ _ (fun l j => vertexStack_eq cos sin pi radius _ _ l j) _
  · exact forLoop_append _ _ _ (fun l j => indexStack_eq _ _ l j) _

/-! ### Buffers made of equal-sized blocks -/

theorem length_flatMap_range {β : Type} (f : Nat → List β) (k : Nat)
    (hk : ∀ a, (f a).length = k) (n : Nat) :
    ((List.range n).flatMap f).length = k * n := by
  induction n with
  | zero => simp
  | succ n ih =>
    rw [List.range_succ, List.flatMap_append, List.length_append, ih, List.flatMap_singleton, hk]
    ring

/-- Entry `r` of block `m` sits at offset `k * m + r`. -/
theorem getElem?_flatMap_range {β : Type} (f : Nat → List β) (k : Nat)
    (hk : ∀ a, (f a).length = k) (n m r : Nat) (hm : m < n) (hr : r < k) :
    ((List.range n).flatMap f)[k * m + r]? = (f m)[r]? := by
  induction n with
  | zero => omega
  | succ n ih =>
    rw [List.range_succ, List.flatMap_append, List.flatMap_singleton]
    have hlen := length_flatMap_range f k hk n
    by_cases h : m < n
    · have hlt : k * m + r < ((List.range n).flatMap f).length := by
        rw [hlen]
        calc k * m + r < k * m + k := by omega
          _ = k * (m + 1) := by ring
          _ ≤ k * n := Nat.mul_le_mul_left k h
      rw [List.getElem?_append_left hlt]
      exact ih h
    · have hmn : m = n := by omega
      subst hmn
      have hle : ((List.range m).flatMap f).length ≤ k * m + r := by omega
      rw [List.getElem?_append_right hle, hlen]
      congr 1
      omega

/-- Entry `r` of block `(i, j)` of a grid with rows of `m` blocks of `k`
entries sits at offset `k * (i * m + j) + r`. -/
theorem getElem?_grid {β : Type} (g : Nat → Nat → List β) (k : Nat)
    (hk : ∀ a b, (g a b).length = k) (n m i j r : Nat)
    (hi : i < n) (hj : j < m) (hr : r < k) :
    ((List.range n).flatMap (fun a => (List.range m).flatMap (g a)))[k * (i * m + j) + r]? =
      (g i j)[r]? := by
  have hrow : ∀ a, ((List.range m).flatMap (g a)).length = k * m :=
    fun a => length_flatMap_range (g a) k (hk a) m
  have hoff : k * (i * m + j) + r = (k * m) * i + (k * j + r) := by ring
  have hin : k * j + r < k * m := by
    calc k * j + r < k * j + k := by omega
      _ = k * (j + 1) := by ring
      _ ≤ k * m := Nat.mul_le_mul_left k hj
  rw [hoff, getElem?_flatMap_range _ (k * m) hrow n i _ hi hin]
  exact getElem?_flatMap_range (g i) k (hk i) m j r hj hr

theorem length_grid {β : Type} (g : Nat → Nat → List β) (k : Nat)
    (hk : ∀ a b, (g a b).length = k) (n m : Nat) :
    ((List.range n).flatMap (fun a => (List.range m).flatMap (g a))).length = k * m * n :=
  length_flatMap_range _ (k * m) (fun a => length_flatMap_range (g a) k (hk a) m) n

theorem vertexBlock_length (cos sin : α → α) (pi radius : α) (stackCount sectorCount : Int)
    (i j : Nat) : (vertexBlock cos sin pi radius stackCount sectorCount i j).length = 5 := rfl

/-- The vertex buffer `generateSphere` builds from an empty one. -/
theorem sphere_vertices_length (cos sin : α → α) (pi radius : α) (S C : Nat) :
    (generateSphere cos sin pi [] [] radius S C).1.length = 5 * ((S + 1) * (C + 1)) := by
  rw [generateSphere_eq]
  simp only [List.nil_append]
  rw [length_grid _ 5 (vertexBlock_length cos sin pi radius S C)]
  have h1 : ((S : Int) + 1).toNat = S + 1 := by omega
  have h2 : ((C : Int) + 1).toNat = C + 1 := by omega
  rw [h1, h2]; ring

/-- Entry `r` of the vertex for stack `i` and sector `j`. -/
theorem sphere_vertices_getElem? (cos sin : α → α) (pi radius : α) (S C i j r : Nat)
    (hi : i ≤ S) (hj : j ≤ C) (hr : r < 5) :
    (generateSphere cos sin pi [] [] radius S C).1[5 * (i * (C + 1) + j) + r]? =
      (vertexBlock cos sin pi radius S C i j)[r]? := by
  rw [generateSphere_eq]
  simp only [List.nil_append]
  have h1 : ((S : Int) + 1).toNat = S + 1 := by omega
  have h2 : ((C : Int) + 1).toNat = C + 1 := by omega
  rw [h1, h2]
  exact getElem?_grid _ 5 (vertexBlock_length cos sin pi radius S C) (S + 1) (C + 1) i j r
    (by omega) (by omega) hr

/-- The five consecutive floats stored for stack `i` and sector `j`. -/
theorem sphere_vertex_record (cos sin : α → α) (pi radius : α) (S C i j : Nat)
    (hi : i ≤ S) (hj : j ≤ C) :
    ((generateSphere cos sin pi [] [] radius S C).1.drop (5 * (i * (C + 1) + j))).take 5 =
      vertexBlock cos sin pi radius S C i j := by
  apply List.ext_getElem?
  intro r
  rw [List.getElem?_take]
  split
  · next h =>
    rw [List.getElem?_drop]
    exact sphere_vertices_getElem? cos sin pi radius S C i j r hi hj h
  · next h =>
    symm
    apply List.getElem?_eq_none
    rw [vertexBlock_length]
    omega

/-! ### The index buffer -/

theorem toNat_eq_of_eq_cast (z : Int) (n : Nat) (h : z = (n : Int)) : z.toNat = n := by
  subst h; simp

/-- The index buffer `generateSphere` builds from an empty one. -/
theorem sphere_indices_eq (cos sin : α → α) (pi radius : α) (S C : Nat) :
    (generateSphere cos sin pi [] [] radius S C).2 =
      (List.range S).flatMap (fun i => (List.range C).flatMap (indexBlock S C i)) := by
  rw [generateSphere_eq]
  simp

theorem indexBlock_nat (S C i j : Nat) :
    indexBlock S C i j =
      (if i ≠ 0 then
          [i * (C + 1) + j, (i + 1) * (C + 1) + j, i * (C + 1) + j + 1]
        else []) ++
      (if i + 1 ≠ S then
          [i * (C + 1) + j + 1, (i + 1) * (C + 1) + j, (i + 1) * (C + 1) + j + 1]
        else []) := by
  have e1 : ((i : Int) * ((C : Int) + 1) + j).toNat = i * (C + 1) + j :=
    toNat_eq_of_eq_cast _ _ (by push_cast; ring)
  have e2 : ((i : Int) * ((C : Int) + 1) + C + 1 + j).toNat = (i + 1) * (C + 1) + j :=
    toNat_eq_of_eq_cast _ _ (by push_cast; ring)
  have e3 : ((i : Int) * ((C : Int) + 1) + j + 1).toNat = i * (C + 1) + j + 1 :=
    toNat_eq_of_eq_cast _ _ (by push_cast; ring)
  have e4 : ((i : Int) * ((C : Int) + 1) + C + 1 + j + 1).toNat = (i + 1) * (C + 1) + j + 1 :=
    toNat_eq_of_eq_cast _ _ (by push_cast; ring)
  have c1 : ((i : Int) ≠ 0) ↔ i ≠ 0 := by omega
  have c2 : ((i : Int) ≠ (S : Int) - 1) ↔ i + 1 ≠ S := by omega
  unfold indexBlock
  rw [e1, e2, e3, e4]
  simp only [c1, c2]

theorem triBlock_nat (S C i j : Nat) :
    triBlock S C i j =
      (if i ≠ 0 then
          [(i * (C + 1) + j, (i + 1) * (C + 1) + j, i * (C + 1) + j + 1)]
        else []) ++
      (if i + 1 ≠ S then
          [(i * (C + 1) + j + 1, (i + 1) * (C + 1) + j, (i + 1) * (C + 1) + j + 1)]
        else []) := by
  have e1 : ((i : Int) * ((C : Int) + 1) + j).toNat = i * (C + 1) + j :=
    toNat_eq_of_eq_cast _ _ (by push_cast; ring)
  have e2 : ((i : Int) * ((C : Int) + 1) + C + 1 + j).toNat = (i + 1) * (C + 1) + j :=
    toNat_eq_of_eq_cast _ _ (by push_cast; ring)
  have e3 : ((i : Int) * ((C : Int) + 1) + j + 1).toNat = i * (C + 1) + j + 1 :=
    toNat_eq_of_eq_cast _ _ (by push_cast; ring)
  have e4 : ((i : Int) * ((C : Int) + 1) + C + 1 + j + 1).toNat = (i + 1) * (C + 1) + j + 1 :=
    toNat_eq_of_eq_cast _ _ (by push_cast; ring)
  have c1 : ((i : Int) ≠ 0) ↔ i ≠ 0 := by omega
  have c2 : ((i : Int) ≠ (S : Int) - 1) ↔ i + 1 ≠ S := by omega
  unfold triBlock
  rw [e1, e2, e3, e4]
  simp only [c1, c2]

/-- Every index emitted for stack `i < S` and sector `j < C` is below the
vertex count. -/
theorem indexBlock_lt (S C i j : Nat) (hi : i < S) (hj : j < C) :
    ∀ k ∈ indexBlock S C i j, k < (S + 1) * (C + 1) := by
  have hrow : (i + 1) * (C + 1) ≤ S * (C + 1) := Nat.mul_le_mul_right _ hi
  have hexp : (S + 1) * (C + 1) = S * (C + 1) + C + 1 := by ring
  have hexp2 : (i + 1) * (C + 1) = i * (C + 1) + C + 1 := by ring
  intro k hk
  rw [indexBlock_nat] at hk
  rw [hexp]
  rw [hexp2] at hrow hk
  generalize i * (C + 1) = p at hrow hk
  generalize S * (C + 1) = q at hrow
  rcases List.mem_append.1 hk with h | h
  · split at h
    · simp only [List.mem_cons, List.mem_singleton, List.not_mem_nil, or_false] at h
      omega
    · simp at h
  · split at h
    · simp only [List.mem_cons, List.mem_singleton, List.not_mem_nil, or_false] at h
      omega
    · simp at h

theorem sphere_indices_lt (cos sin : α → α) (pi radius : α) (S C : Nat) :
    ∀ k ∈ (generateSphere cos sin pi [] [] radius S C).2, k < (S + 1) * (C + 1) := by
  intro k hk
  rw [sphere_indices_eq] at hk
  obtain ⟨i, hi, hk⟩ := List.mem_flatMap.1 hk
  obtain ⟨j, hj, hk⟩ := List.mem_flatMap.1 hk
  exact indexBlock_lt S C i j (List.mem_range.1 hi) (List.mem_range.1 hj) k hk

/-- The number of indices one sector iteration of stack `i` appends. -/
theorem indexBlock_length (S C i j : Nat) :
    (indexBlock S C i j).length =
      (if i ≠ 0 then 3 else 0) + (if i + 1 ≠ S then 3 else 0) := by
  rw [indexBlock_nat]
  split <;> split <;> rfl

/-- The number of indices stack `i` appends. -/
theorem indexStack_length (S C : Nat) (idx : List Nat) (i : Nat) :
    (indexStack S C idx i).length =
      idx.length + ((if i ≠ 0 then 3 else 0) + (if i + 1 ≠ S then 3 else 0)) * C := by
  rw [indexStack_eq, List.length_append, Int.toNat_ofNat,
    length_flatMap_range _ _ (indexBlock_length S C i) C]

theorem indices_prefix_length (S C : Nat) (n : Nat) (hn : n + 2 ≤ S) :
    ((List.range (n + 1)).flatMap
        (fun i => (List.range C).flatMap (indexBlock S C i))).length = 3 * C + 6 * C * n := by
  induction n with
  | zero =>
    have hr : List.range (0 + 1) = [0] := rfl
    rw [hr, List.flatMap_singleton]
    rw [length_flatMap_range _ _ (indexBlock_length S C 0) C]
    have : 0 + 1 ≠ S := by omega
    simp [this]
  | succ n ih =>
    rw [List.range_succ, List.flatMap_append, List.length_append, ih (by omega),
      List.flatMap_singleton, length_flatMap_range _ _ (indexBlock_length S C (n + 1)) C]
    have h1 : n + 1 ≠ 0 := by omega
    have h2 : n + 1 + 1 ≠ S := by omega
    simp only [h1, h2, ne_eq, not_false_eq_true, if_true]
    ring

theorem sphere_indices_length (cos sin : α → α) (pi radius : α) (S C : Nat) (hS : 2 ≤ S) :
    (generateSphere cos sin pi [] [] radius S C).2.length = 3 * (2 * C + 2 * (S - 2) * C) := by
  rw [sphere_indices_eq]
  obtain ⟨n, rfl⟩ : ∃ n, S = n + 2 := ⟨S - 2, by omega⟩
  rw [List.range_succ, List.flatMap_append, List.length_append,
    indices_prefix_length (n + 2) C n le_rfl, List.flatMap_singleton,
    length_flatMap_range _ _ (indexBlock_length (n + 2) C (n + 1)) C]
  have h1 : n + 1 ≠ 0 := by omega
  simp only [h1, ne_eq, not_false_eq_true, if_true, not_true_eq_false, if_false,
    Nat.add_sub_cancel]
  ring

theorem triangles_length : ∀ l : List Nat, (triangles l).length = l.length / 3
  | a :: b :: c :: rest => by
    simp only [triangles, List.length_cons, triangles_length rest]
    omega
  | [] => rfl
  | [_] => by simp [triangles]
  | [_, _] => by simp [triangles]

theorem triangles_indexBlock_append (S C : Int) (i j : Nat) (rest : List Nat) :
    triangles (indexBlock S C i j ++ rest) = triBlock S C i j ++ triangles rest := by
  unfold indexBlock triBlock
  split <;> split <;> simp [triangles]

theorem triangles_flatMap_append {ι : Type} (f : ι → List Nat) (g : ι → List (Nat × Nat × Nat))
    (h : ∀ a rest, triangles (f a ++ rest) = g a ++ triangles rest) (l : List ι)
    (rest : List Nat) :
    triangles (l.flatMap f ++ rest) = l.flatMap g ++ triangles rest := by
  induction l with
  | nil => simp
  | cons a l ih => simp only [List.flatMap_cons, List.append_assoc, h, ih]

/-- The triangles of the index buffer `generateSphere` builds from an empty one. -/
theorem sphere_triangles_eq (cos sin : α → α) (pi radius : α) (S C : Nat) :
    triangles (generateSphere cos sin pi [] [] radius S C).2 =
      (List.range S).flatMap (fun i => (List.range C).flatMap (triBlock S C i)) := by
  rw [sphere_indices_eq]
  have h := triangles_flatMap_append
    (fun i => (List.range C).flatMap (indexBlock (S : Int) (C : Int) i))
    (fun i => (List.range C).flatMap (triBlock (S : Int) (C : Int) i))
    (fun i rest => triangles_flatMap_append _ _
      (fun j rest => triangles_indexBlock_append S C i j rest) _ rest)
    (List.range S) []
  simpa [triangles] using h

theorem row_of_offset (m i j : Nat) (hj : j < m) : (i * m + j) / m = i := by
  have hm : 0 < m := by omega
  rw [Nat.add_comm, Nat.add_mul_div_right _ _ hm, Nat.div_eq_of_lt hj]
  omega

/-- The vertex rows of the triangles emitted for stack `i < S` and sector
`j < C`: never two corners in row `0`, never two corners in row `S`. -/
theorem triBlock_rows (S C i j : Nat) (hi : i < S) (hj : j < C) :
    ∀ t ∈ triBlock S C i j, ∀ p : Nat, (p = 0 ∨ p = S) →
      ¬ (t.1 / (C + 1) = p ∧ t.2.1 / (C + 1) = p) ∧
      ¬ (t.1 / (C + 1) = p ∧ t.2.2 / (C + 1) = p) ∧
      ¬ (t.2.1 / (C + 1) = p ∧ t.2.2 / (C + 1) = p) := by
  have r1 : (i * (C + 1) + j) / (C + 1) = i := row_of_offset _ _ _ (by omega)
  have r2 : (i * (C + 1) + j + 1) / (C + 1) = i := by
    rw [Nat.add_assoc]; exact row_of_offset _ _ _ (by omega)
  have r3 : ((i + 1) * (C + 1) + j) / (C + 1) = i + 1 := row_of_offset _ _ _ (by omega)
  have r4 : ((i + 1) * (C + 1) + j + 1) / (C + 1) = i + 1 := by
    rw [Nat.add_assoc]; exact row_of_offset _ _ _ (by omega)
  intro t ht p hp
  rw [triBlock_nat] at ht
  rcases List.mem_append.1 ht with h | h
  · split at h
    · next h0 =>
      simp only [List.mem_singleton] at h
      subst h
      simp only [r1, r2, r3]
      omega
    · simp at h
  · split at h
    · next h1 =>
      simp only [List.mem_singleton] at h
      subst h
      simp only [r2, r3, r4]
      omega
    · simp at h

/-! ### Orbit transforms over the real numbers -/

theorem originImage_orbitModel (t speed r : ℝ) (s : Vec3 ℝ) :
    originImage (orbitModel Real.cos Real.sin Real.sqrt t speed r s) =
      ⟨r * Real.cos (t * speed), 0, -(r * Real.sin (t * speed)), 1⟩ := by
  simp [originImage, orbitModel, scale, translate, rotate, normalize, mat4One, Mat4.mulVec,
    Vec4.scale, Vec4.add, vec4]
  exact ⟨mul_comm _ _, mul_comm _ _⟩

end Lemmas

/-! ## The claims -/

section Claims

/-- C1: for `stackCount ≥ 1`, `sectorCount ≥ 3` and `radius > 0`, `generateSphere`
on empty buffers produces a float buffer of `5 * (stackCount+1) * (sectorCount+1)`
entries, i.e. `(stackCount+1) * (sectorCount+1)` vertices of five floats, and
the vertex of stack `i` and sector `j` (its position computed from the two
angles, its texture coordinate `(j / sectorCount, i / stackCount)`) is stored
at vertex offset `i * (sectorCount+1) + j`. -/
theorem C1_vertex_count_and_layout {α : Type} [LinearOrderedField α] (cos sin : α → α)
    (pi radius : α) (stackCount sectorCount : Int)
    (hS : 1 ≤ stackCount) (hC : 3 ≤ sectorCount) (_hr : 0 < radius) :
    ((generateSphere cos sin pi [] [] radius stackCount sectorCount).1.length : Int) =
        5 * ((stackCount + 1) * (sectorCount + 1)) ∧
    ∀ i j : Nat, (i : Int) ≤ stackCount → (j : Int) ≤ sectorCount →
      ((generateSphere cos sin pi [] [] radius stackCount sectorCount).1.drop
          (5 * ((i : Int) * (sectorCount + 1) + j).toNat)).take 5 =
        [radius * cos (stackAngle pi stackCount i) * cos (sectorAngle pi sectorCount j),
         radius * cos (stackAngle pi stackCount i) * sin (sectorAngle pi sectorCount j),
         radius * sin (stackAngle pi stackCount i),
         ((j : Int) : α) / (sectorCount : α),
         ((i : Int) : α) / (stackCount : α)] := by
  lift stackCount to ℕ using (by omega)
  lift sectorCount to ℕ using (by omega)
  refine ⟨?_, ?_⟩
  · rw [sphere_vertices_length]; push_cast; ring
  · intro i j hi hj
    have hoff : ((i : Int) * ((sectorCount : Int) + 1) + j).toNat = i * (sectorCount + 1) + j := by
      have : ((i : Int) * ((sectorCount : Int) + 1) + j) = ((i * (sectorCount + 1) + j : ℕ) : Int) := by
        push_cast; ring
      rw [this, Int.toNat_ofNat]
    rw [hoff, sphere_vertex_record cos sin pi radius stackCount sectorCount i j
      (by exact_mod_cast hi) (by exact_mod_cast hj)]
    simp [vertexBlock]

/-- C1 at `radius = 1`, `stackCount = 20`, `sectorCount = 20` (the call of
line 219) over the real numbers: `441` vertices, `2205` floats. -/
theorem C1_vertex_count_and_layout_witness :
    (1 : Int) ≤ 20 ∧ (3 : Int) ≤ 20 ∧ (0 : ℝ) < 1 ∧
    ((generateSphere Real.cos Real.sin Real.pi [] [] 1 20 20).1.length : Int) =
        5 * ((20 + 1) * (20 + 1)) :=
  ⟨by decide, by decide, by norm_num,
    (C1_vertex_count_and_layout Real.cos Real.sin Real.pi 1 20 20
      (by decide) (by decide) (by norm_num)).1⟩

/-- C4: reading the trigonometry over the real numbers, for `radius > 0`,
`stackCount ≥ 1` and `sectorCount ≥ 3` every vertex of the buffer
`generateSphere` produces (every vertex offset `v` below the vertex count)
has a position `(x, y, z)` with `x^2 + y^2 + z^2 = radius^2`. -/
theorem C4_position_on_sphere (radius : ℝ) (stackCount sectorCount : Int)
    (_hr : 0 < radius) (hS : 1 ≤ stackCount) (hC : 3 ≤ sectorCount) :
    ∀ v : Nat, (v : Int) < (stackCount + 1) * (sectorCount + 1) →
      ∃ x y z : ℝ,
        (generateSphere Real.cos Real.sin Real.pi [] [] radius stackCount sectorCount).1[5 * v]?
          = some x ∧
        (generateSphere Real.cos Real.sin Real.pi [] [] radius stackCount sectorCount).1[5 * v + 1]?
          = some y ∧
        (generateSphere Real.cos Real.sin Real.pi [] [] radius stackCount sectorCount).1[5 * v + 2]?
          = some z ∧
        x ^ 2 + y ^ 2 + z ^ 2 = radius ^ 2 := by
  lift stackCount to ℕ using (by omega)
  lift sectorCount to ℕ using (by omega)
  intro v hv
  have hv' : v < (stackCount + 1) * (sectorCount + 1) := by exact_mod_cast hv
  have hj : v % (sectorCount + 1) < sectorCount + 1 := Nat.mod_lt _ (by omega)
  have hi : v / (sectorCount + 1) < stackCount + 1 :=
    Nat.div_lt_of_lt_mul (by rw [Nat.mul_comm]; exact hv')
  have hvij : v = v / (sectorCount + 1) * (sectorCount + 1) + v % (sectorCount + 1) :=
    (Nat.div_add_mod' v (sectorCount + 1)).symm
  have key : ∀ r, r < 5 →
      (generateSphere Real.cos Real.sin Real.pi [] [] radius stackCount sectorCount).1[5 * v + r]? =
        (vertexBlock Real.cos Real.sin Real.pi radius stackCount sectorCount
          (v / (sectorCount + 1)) (v % (sectorCount + 1)))[r]? := fun r hr => by
    have h := sphere_vertices_getElem? Real.cos Real.sin Real.pi radius stackCount sectorCount
      (v / (sectorCount + 1)) (v % (sectorCount + 1)) r (by omega) (by omega) hr
    rw [← hvij] at h
    exact h
  refine ⟨radius * Real.cos (stackAngle Real.pi (stackCount : Int) ((v / (sectorCount + 1) : ℕ) : Int))
      * Real.cos (sectorAngle Real.pi (sectorCount : Int) ((v % (sectorCount + 1) : ℕ) : Int)),
    radius * Real.cos (stackAngle Real.pi (stackCount : Int) ((v / (sectorCount + 1) : ℕ) : Int))
      * Real.sin (sectorAngle Real.pi (sectorCount : Int) ((v % (sectorCount + 1) : ℕ) : Int)),
    radius * Real.sin (stackAngle Real.pi (stackCount : Int) ((v / (sectorCount + 1) : ℕ) : Int)),
    (key 0 (by omega)).trans rfl, (key 1 (by omega)).trans rfl,
    (key 2 (by omega)).trans rfl, ?_⟩
  have h1 := Real.sin_sq_add_cos_sq
    (stackAngle Real.pi (stackCount : Int) ((v / (sectorCount + 1) : ℕ) : Int))
  have h2 := Real.sin_sq_add_cos_sq
    (sectorAngle Real.pi (sectorCount : Int) ((v % (sectorCount + 1) : ℕ) : Int))
  linear_combination
    radius ^ 2 * h1 + radius ^ 2 *
      Real.cos (stackAngle Real.pi (stackCount : Int) ((v / (sectorCount + 1) : ℕ) : Int)) ^ 2 * h2

/-- C4 at `radius = 1`, `stackCount = 20`, `sectorCount = 20` (the call of
line 219) and the vertex at offset `7`. -/
theorem C4_position_on_sphere_witness :
    ∃ x y z : ℝ,
      (generateSphere Real.cos Real.sin Real.pi [] [] 1 20 20).1[5 * 7]? = some x ∧
      (generateSphere Real.cos Real.sin Real.pi [] [] 1 20 20).1[5 * 7 + 1]? = some y ∧
      (generateSphere Real.cos Real.sin Real.pi [] [] 1 20 20).1[5 * 7 + 2]? = some z ∧
      x ^ 2 + y ^ 2 + z ^ 2 = (1 : ℝ) ^ 2 :=
  C4_position_on_sphere 1 20 20 (by norm_num) (by decide) (by decide) 7 (by decide)

/-- C5: for `stackCount ≥ 1` and `sectorCount ≥ 3` the vertex of stack `i` and
sector `j` carries the texture coordinate `(j / sectorCount, i / stackCount)`
in slots 3 and 4 of its record; both components of every vertex lie in
`[0, 1]`; the vertex `(0, 0)` has texture coordinate `(0, 0)` and the vertex
`(stackCount, sectorCount)` has `(1, 1)`. -/
theorem C5_texcoords {α : Type} [LinearOrderedField α] (cos sin : α → α) (pi radius : α)
    (stackCount sectorCount : Int) (hS : 1 ≤ stackCount) (hC : 3 ≤ sectorCount) :
    (∀ i j : Nat, (i : Int) ≤ stackCount → (j : Int) ≤ sectorCount →
      (generateSphere cos sin pi [] [] radius stackCount sectorCount).1[
          5 * ((i : Int) * (sectorCount + 1) + j).toNat + 3]? =
        some (((j : Int) : α) / (sectorCount : α)) ∧
      (generateSphere cos sin pi [] [] radius stackCount sectorCount).1[
          5 * ((i : Int) * (sectorCount + 1) + j).toNat + 4]? =
        some (((i : Int) : α) / (stackCount : α))) ∧
    (∀ v : Nat, (v : Int) < (stackCount + 1) * (sectorCount + 1) →
      ∃ s t : α,
        (generateSphere cos sin pi [] [] radius stackCount sectorCount).1[5 * v + 3]? = some s ∧
        (generateSphere cos sin pi [] [] radius stackCount sectorCount).1[5 * v + 4]? = some t ∧
        0 ≤ s ∧ s ≤ 1 ∧ 0 ≤ t ∧ t ≤ 1) ∧
    (generateSphere cos sin pi [] [] radius stackCount sectorCount).1[3]? = some 0 ∧
    (generateSphere cos sin pi [] [] radius stackCount sectorCount).1[4]? = some 0 ∧
    (generateSphere cos sin pi [] [] radius stackCount sectorCount).1[
        5 * (stackCount * (sectorCount + 1) + sectorCount).toNat + 3]? = some 1 ∧
    (generateSphere cos sin pi [] [] radius stackCount sectorCount).1[
        5 * (stackCount * (sectorCount + 1) + sectorCount).toNat + 4]? = some 1 := by
  lift stackCount to ℕ using (by omega)
  lift sectorCount to ℕ using (by omega)
  have hSpos : (0 : α) < (stackCount : α) := by
    have : 1 ≤ stackCount := by exact_mod_cast hS
    exact_mod_cast (show 0 < stackCount by omega)
  have hCpos : (0 : α) < (sectorCount : α) := by
    have : 3 ≤ sectorCount := by exact_mod_cast hC
    exact_mod_cast (show 0 < sectorCount by omega)
  have hoff : ∀ i j : ℕ,
      ((i : Int) * ((sectorCount : Int) + 1) + j).toNat = i * (sectorCount + 1) + j := by
    intro i j
    have : ((i : Int) * ((sectorCount : Int) + 1) + j) =
        ((i * (sectorCount + 1) + j : ℕ) : Int) := by push_cast; ring
    rw [this, Int.toNat_ofNat]
  have key : ∀ i j : ℕ, i ≤ stackCount → j ≤ sectorCount →
      (generateSphere cos sin pi [] [] radius (stackCount : Int) (sectorCount : Int)).1[
          5 * (i * (sectorCount + 1) + j) + 3]? = some ((j : α) / (sectorCount : α)) ∧
      (generateSphere cos sin pi [] [] radius (stackCount : Int) (sectorCount : Int)).1[
          5 * (i * (sectorCount + 1) + j) + 4]? = some ((i : α) / (stackCount : α)) := by
    intro i j hi hj
    rw [sphere_vertices_getElem? cos sin pi radius stackCount sectorCount i j 3 hi hj (by omega),
      sphere_vertices_getElem? cos sin pi radius stackCount sectorCount i j 4 hi hj (by omega)]
    simp [vertexBlock]
  refine ⟨?_, ?_, ?_, ?_, ?_, ?_⟩
  · intro i j hi hj
    rw [hoff]
    simpa using key i j (by exact_mod_cast hi) (by exact_mod_cast hj)
  · intro v hv
    have hv' : v < (stackCount + 1) * (sectorCount + 1) := by exact_mod_cast hv
    have hj : v % (sectorCount + 1) < sectorCount + 1 := Nat.mod_lt _ (by omega)
    have hi : v / (sectorCount + 1) < stackCount + 1 :=
      Nat.div_lt_of_lt_mul (by rw [Nat.mul_comm]; exact hv')
    have hvij : v / (sectorCount + 1) * (sectorCount + 1) + v % (sectorCount + 1) = v :=
      Nat.div_add_mod' v (sectorCount + 1)
    have h := key (v / (sectorCount + 1)) (v % (sectorCount + 1)) (by omega) (by omega)
    rw [hvij] at h
    refine ⟨_, _, h.1, h.2, ?_, ?_, ?_, ?_⟩
    · positivity
    · rw [div_le_one hCpos]
      exact_mod_cast (show v % (sectorCount + 1) ≤ sectorCount by omega)
    · positivity
    · rw [div_le_one hSpos]
      exact_mod_cast (show v / (sectorCount + 1) ≤ stackCount by omega)
  · simpa using (key 0 0 (by omega) (by omega)).1
  · simpa using (key 0 0 (by omega) (by omega)).2
  · have h := hoff stackCount sectorCount
    rw [h]
    have := (key stackCount sectorCount le_rfl le_rfl).1
    rwa [div_self hCpos.ne'] at this
  · have h := hoff stackCount sectorCount
    rw [h]
    have := (key stackCount sectorCount le_rfl le_rfl).2
    rwa [div_self hSpos.ne'] at this

/-- C5 at `stackCount = 2`, `sectorCount = 3`: the first vertex has texture
coordinate `(0, 0)` and the last one `(1, 1)`. -/
theorem C5_texcoords_witness :
    (1 : Int) ≤ 2 ∧ (3 : Int) ≤ 3 ∧
    (generateSphere Real.cos Real.sin Real.pi [] [] 1 2 3).1[3]? = some 0 ∧
    (generateSphere Real.cos Real.sin Real.pi [] [] 1 2 3).1[4]? = some 0 ∧
    (generateSphere Real.cos Real.sin Real.pi [] [] 1 2 3).1[
        5 * ((2 : Int) * (3 + 1) + 3).toNat + 3]? = some 1 ∧
    (generateSphere Real.cos Real.sin Real.pi [] [] 1 2 3).1[
        5 * ((2 : Int) * (3 + 1) + 3).toNat + 4]? = some 1 :=
  ⟨by decide, by decide,
    (C5_texcoords Real.cos Real.sin Real.pi 1 2 3 (by decide) (by decide)).2.2⟩

/-- C2: for `stackCount ≥ 1` and `sectorCount ≥ 3` every value `generateSphere`
(on empty buffers) writes into the index buffer is a valid vertex offset: it is
`≥ 0` and `< (stackCount+1) * (sectorCount+1)`, so that the five floats of the
vertex it names lie inside the vertex buffer. -/
theorem C2_indices_in_range {α : Type} [Field α] (cos sin : α → α) (pi radius : α)
    (stackCount sectorCount : Int) (hS : 1 ≤ stackCount) (hC : 3 ≤ sectorCount) :
    ∀ k ∈ (generateSphere cos sin pi [] [] radius stackCount sectorCount).2,
      0 ≤ (k : Int) ∧ (k : Int) < (stackCount + 1) * (sectorCount + 1) ∧
      5 * k + 4 < (generateSphere cos sin pi [] [] radius stackCount sectorCount).1.length := by
  lift stackCount to ℕ using (by omega)
  lift sectorCount to ℕ using (by omega)
  intro k hk
  have h := sphere_indices_lt cos sin pi radius stackCount sectorCount k hk
  refine ⟨Int.natCast_nonneg k, by exact_mod_cast h, ?_⟩
  rw [sphere_vertices_length]
  omega

/-- C2 at `stackCount = 2`, `sectorCount = 3` and the index value `10`, the
largest one of that mesh. -/
theorem C2_indices_in_range_witness :
    (1 : Int) ≤ 2 ∧ (3 : Int) ≤ 3 ∧
    10 ∈ (generateSphere Real.cos Real.sin Real.pi [] [] 1 2 3).2 ∧
    0 ≤ ((10 : ℕ) : Int) ∧ ((10 : ℕ) : Int) < (2 + 1) * (3 + 1) ∧
    5 * 10 + 4 < (generateSphere Real.cos Real.sin Real.pi [] [] 1 2 3).1.length :=
  ⟨by decide, by decide, by decide,
    C2_indices_in_range Real.cos Real.sin Real.pi 1 2 3 (by decide) (by decide)
      10 (by decide)⟩

/-- C3: for `stackCount ≥ 2` and `sectorCount ≥ 3`, `generateSphere` on empty
buffers emits exactly `2*sectorCount + 2*(stackCount-2)*sectorCount` triangles
(the index buffer holds three times as many entries); stack `0` and stack
`stackCount-1` each append `sectorCount` triangles and every stack strictly
between them appends `2*sectorCount`. -/
theorem C3_triangle_count {α : Type} [Field α] (cos sin : α → α) (pi radius : α)
    (stackCount sectorCount : Int) (hS : 2 ≤ stackCount) (hC : 3 ≤ sectorCount) :
    ((triangles (generateSphere cos sin pi [] [] radius stackCount sectorCount).2).length : Int) =
        2 * sectorCount + 2 * (stackCount - 2) * sectorCount ∧
    ((generateSphere cos sin pi [] [] radius stackCount sectorCount).2.length : Int) =
        3 * (2 * sectorCount + 2 * (stackCount - 2) * sectorCount) ∧
    (∀ idx : List Nat,
      ((indexStack stackCount sectorCount idx 0).length : Int) = idx.length + 3 * sectorCount) ∧
    (∀ idx : List Nat,
      ((indexStack stackCount sectorCount idx (stackCount - 1)).length : Int) =
        idx.length + 3 * sectorCount) ∧
    (∀ (idx : List Nat) (i : Int), 0 < i → i < stackCount - 1 →
      ((indexStack stackCount sectorCount idx i).length : Int) =
        idx.length + 3 * (2 * sectorCount)) := by
  lift stackCount to ℕ using (by omega)
  lift sectorCount to ℕ using (by omega)
  have hS' : 2 ≤ stackCount := by exact_mod_cast hS
  have hlen := sphere_indices_length cos sin pi radius stackCount sectorCount hS'
  have hcast : ((stackCount - 2 : ℕ) : Int) = (stackCount : Int) - 2 := by omega
  refine ⟨?_, ?_, ?_, ?_, ?_⟩
  · rw [triangles_length, hlen, Nat.mul_div_cancel_left _ (by omega : 0 < 3)]
    push_cast [hcast]; ring
  · rw [hlen]; push_cast [hcast]; ring
  · intro idx
    have h := indexStack_length stackCount sectorCount idx 0
    have h1 : 0 + 1 ≠ stackCount := by omega
    simp only [ne_eq, not_true_eq_false, if_false, h1, not_false_eq_true, if_true,
      Nat.zero_add] at h
    have h0 : ((0 : ℕ) : Int) = 0 := rfl
    rw [h0] at h
    rw [h]; push_cast; ring
  · intro idx
    have hc : ((stackCount : Int) - 1) = ((stackCount - 1 : ℕ) : Int) := by omega
    rw [hc, indexStack_length]
    have h0 : stackCount - 1 ≠ 0 := by omega
    have h1 : ¬ (stackCount - 1 + 1 ≠ stackCount) := by omega
    simp only [h0, h1, ne_eq, not_false_eq_true, if_true, if_false]
    push_cast; ring
  · intro idx i hi0 hi1
    lift i to ℕ using (by omega)
    rw [indexStack_length]
    have h0 : i ≠ 0 := by omega
    have h1 : i + 1 ≠ stackCount := by omega
    simp only [h0, h1, ne_eq, not_false_eq_true, if_true]
    push_cast; ring

/-- C3 at `stackCount = 20`, `sectorCount = 20` (the call of line 219):
`760` triangles, `2280` indices. -/
theorem C3_triangle_count_witness :
    (2 : Int) ≤ 20 ∧ (3 : Int) ≤ 20 ∧
    ((triangles (generateSphere Real.cos Real.sin Real.pi [] [] 1 20 20).2).length
        : Int) = 2 * 20 + 2 * (20 - 2) * 20 ∧
    ((generateSphere Real.cos Real.sin Real.pi [] [] 1 20 20).2.length : Int) =
        3 * (2 * 20 + 2 * (20 - 2) * 20) :=
  ⟨by decide, by decide,
    (C3_triangle_count Real.cos Real.sin Real.pi 1 20 20 (by decide) (by decide)).1,
    (C3_triangle_count Real.cos Real.sin Real.pi 1 20 20 (by decide) (by decide)).2.1⟩

/-- C8 as stated fails at `stackCount = 1`, `sectorCount = 3`: the index
buffer stays empty, so the mesh has `0` triangles, not `2 * 3`. -/
theorem C8_counterexample :
    ¬ ((triangles (generateSphere Real.cos Real.sin Real.pi [] [] 1 1 3).2).length
        = 2 * 3) := by
  decide

/-- C8, amended: for `stackCount = 1` and every `sectorCount ≥ 3`,
`generateSphere` on empty buffers leaves the index buffer empty (the single
stack is both the first and the last one, and each of the two triangles of
a sector is skipped), so it yields exactly `0` triangles. -/
theorem C8_single_stack_no_triangles {α : Type} [Field α] (cos sin : α → α) (pi radius : α)
    (sectorCount : Int) (hC : 3 ≤ sectorCount) :
    (generateSphere cos sin pi [] [] radius 1 sectorCount).2 = [] ∧
    (triangles (generateSphere cos sin pi [] [] radius 1 sectorCount).2).length = 0 := by
  lift sectorCount to ℕ using (by omega)
  have h := sphere_indices_eq cos sin pi radius 1 sectorCount
  have hI : (generateSphere cos sin pi [] [] radius 1 (sectorCount : Int)).2 = [] := by
    have h1 : ((1 : ℕ) : Int) = 1 := rfl
    rw [h1] at h
    rw [h]
    have hr : List.range 1 = [0] := rfl
    rw [hr, List.flatMap_singleton, List.flatMap_eq_nil_iff]
    intro j _
    rw [← h1, indexBlock_nat]
    simp
  rw [hI]
  exact ⟨rfl, rfl⟩

/-- C8, amended, at `sectorCount = 3`. -/
theorem C8_single_stack_no_triangles_witness :
    (3 : Int) ≤ 3 ∧
    (generateSphere Real.cos Real.sin Real.pi [] [] 1 1 3).2 = [] ∧
    (triangles (generateSphere Real.cos Real.sin Real.pi [] [] 1 1 3).2).length = 0 :=
  ⟨by decide,
    C8_single_stack_no_triangles Real.cos Real.sin Real.pi 1 3 (by decide)⟩

/-- C9: for `stackCount ≥ 2` and `sectorCount ≥ 3`, every sector iteration of
the first stack (`i = 0`) and of the last stack (`i = stackCount-1`) appends
exactly one triangle, so each of these stacks holds `sectorCount` triangles;
no triangle of the mesh has two corners in vertex row `0` or two corners in
vertex row `stackCount`; and (trigonometry read over the real numbers) these
are the rows whose vertices all sit at one point, `(0, 0, radius)` for row `0`
and `(0, 0, -radius)` for row `stackCount`. -/
theorem C9_pole_triangles (radius : ℝ)
    (stackCount sectorCount : Int) (hS : 2 ≤ stackCount) (hC : 3 ≤ sectorCount) :
    (∀ (idx : List Nat) (k1 k2 j : Int),
      (indexBody stackCount 0 (idx, k1, k2) j).1.length = idx.length + 3) ∧
    (∀ (idx : List Nat) (k1 k2 j : Int),
      (indexBody stackCount (stackCount - 1) (idx, k1, k2) j).1.length = idx.length + 3) ∧
    ((triangles (indexStack stackCount sectorCount [] 0)).length : Int) = sectorCount ∧
    ((triangles (indexStack stackCount sectorCount [] (stackCount - 1))).length : Int)
      = sectorCount ∧
    (∀ t ∈ triangles (generateSphere Real.cos Real.sin Real.pi [] [] radius stackCount sectorCount).2,
      ∀ p : Nat, (p = 0 ∨ (p : Int) = stackCount) →
        ¬ (vertexRow sectorCount t.1 = p ∧ vertexRow sectorCount t.2.1 = p) ∧
        ¬ (vertexRow sectorCount t.1 = p ∧ vertexRow sectorCount t.2.2 = p) ∧
        ¬ (vertexRow sectorCount t.2.1 = p ∧ vertexRow sectorCount t.2.2 = p)) ∧
    (∀ j : Nat, (j : Int) ≤ sectorCount →
      ((generateSphere Real.cos Real.sin Real.pi [] [] radius stackCount sectorCount).1.drop
          (5 * j)).take 3 = [0, 0, radius] ∧
      ((generateSphere Real.cos Real.sin Real.pi [] [] radius stackCount sectorCount).1.drop
          (5 * (stackCount * (sectorCount + 1) + j).toNat)).take 3 = [0, 0, -radius]) := by
  have hne : (0 : Int) ≠ stackCount - 1 := by omega
  have hne' : stackCount - 1 ≠ 0 := by omega
  refine ⟨?_, ?_, ?_, ?_, ?_, ?_⟩
  · intro idx k1 k2 j
    simp [indexBody, hne]
  · intro idx k1 k2 j
    simp [indexBody, hne']
  · lift stackCount to ℕ using (by omega)
    lift sectorCount to ℕ using (by omega)
    have h := indexStack_length stackCount sectorCount [] 0
    have h1 : 0 + 1 ≠ stackCount := by omega
    simp only [ne_eq, not_true_eq_false, if_false, h1, not_false_eq_true, if_true,
      Nat.zero_add, List.length_nil] at h
    have h0 : ((0 : ℕ) : Int) = 0 := rfl
    rw [h0] at h
    rw [triangles_length, h, Nat.mul_div_cancel_left _ (by omega : 0 < 3)]
  · lift stackCount to ℕ using (by omega)
    lift sectorCount to ℕ using (by omega)
    have hc : ((stackCount : Int) - 1) = ((stackCount - 1 : ℕ) : Int) := by omega
    rw [hc, triangles_length, indexStack_length]
    have h0 : stackCount - 1 ≠ 0 := by omega
    have h1 : ¬ (stackCount - 1 + 1 ≠ stackCount) := by omega
    simp only [h0, h1, ne_eq, not_false_eq_true, if_true, if_false, List.length_nil,
      Nat.zero_add, Nat.add_zero]
    rw [Nat.mul_div_cancel_left _ (by omega : 0 < 3)]
  · lift stackCount to ℕ using (by omega)
    lift sectorCount to ℕ using (by omega)
    intro t ht p hp
    rw [sphere_triangles_eq Real.cos Real.sin Real.pi radius] at ht
    obtain ⟨i, hi, ht⟩ := List.mem_flatMap.1 ht
    obtain ⟨j, hj, ht⟩ := List.mem_flatMap.1 ht
    have hrow : ∀ k : ℕ, vertexRow (sectorCount : Int) k = k / (sectorCount + 1) := by
      intro k
      unfold vertexRow
      have : ((sectorCount : Int) + 1).toNat = sectorCount + 1 := by omega
      rw [this]
    simp only [hrow]
    exact triBlock_rows stackCount sectorCount i j (List.mem_range.1 hi) (List.mem_range.1 hj)
      t ht p (by omega)
  · lift stackCount to ℕ using (by omega)
    lift sectorCount to ℕ using (by omega)
    intro j hj
    have hj' : j ≤ sectorCount := by exact_mod_cast hj
    have hoff : ((stackCount : Int) * ((sectorCount : Int) + 1) + j).toNat =
        stackCount * (sectorCount + 1) + j :=
      toNat_eq_of_eq_cast _ _ (by push_cast; ring)
    have htop : stackAngle Real.pi (stackCount : Int) 0 = Real.pi / 2 := by
      simp [stackAngle]
    have hbot : stackAngle Real.pi (stackCount : Int) ((stackCount : ℕ) : Int) =
        Real.pi / 2 - Real.pi := by
      have hS2 : (stackCount : ℝ) ≠ 0 := by
        have : stackCount ≠ 0 := by omega
        exact_mod_cast this
      unfold stackAngle
      congr 1
      simp only [Int.cast_natCast]
      field_simp
    have h0 := sphere_vertex_record Real.cos Real.sin Real.pi radius stackCount sectorCount 0 j
      (by omega) hj'
    have h1 := sphere_vertex_record Real.cos Real.sin Real.pi radius stackCount sectorCount
      stackCount j le_rfl hj'
    have take3 : ∀ l : List ℝ, l.take 3 = (l.take 5).take 3 := by
      intro l; rw [List.take_take]; rfl
    constructor
    · rw [take3]
      have e : 5 * j = 5 * (0 * (sectorCount + 1) + j) := by ring
      rw [e, h0]
      simp [vertexBlock, htop]
    · rw [take3, hoff, h1]
      simp [vertexBlock, hbot, Real.cos_pi_div_two_sub, Real.sin_pi_div_two_sub]

/-- C9 at `radius = 1`, `stackCount = 2`, `sectorCount = 3`: the two stacks
hold three triangles each. -/
theorem C9_pole_triangles_witness :
    (2 : Int) ≤ 2 ∧ (3 : Int) ≤ 3 ∧
    ((triangles (indexStack 2 3 [] 0)).length : Int) = 3 ∧
    ((triangles (indexStack 2 3 [] (2 - 1))).length : Int) = 3 :=
  ⟨by decide, by decide,
    (C9_pole_triangles 1 2 3 (by decide) (by decide)).2.2.1,
    (C9_pole_triangles 1 2 3 (by decide) (by decide)).2.2.2.1⟩

/-- C10: `generateSphere` only appends: called on buffers `v0` and `i0` it
returns `v0 ++ V` and `i0 ++ I`, where `(V, I)` is what the same call returns
on empty buffers; in particular the appended indices do not depend on `v0`. -/
theorem C10_append_only {α : Type} [Field α] (cos sin : α → α) (pi : α)
    (v0 : List α) (i0 : List Nat) (radius : α) (stackCount sectorCount : Int) :
    generateSphere cos sin pi v0 i0 radius stackCount sectorCount =
      (v0 ++ (generateSphere cos sin pi [] [] radius stackCount sectorCount).1,
       i0 ++ (generateSphere cos sin pi [] [] radius stackCount sectorCount).2) := by
  rw [generateSphere_eq, generateSphere_eq cos sin pi [] []]
  simp

/-- C6: reading the trigonometry over the real numbers, the model matrix of a
planet block (identity, rotate about Y by `t * speed`, translate by
`(orbitRadius, 0, 0)`, scale by `localScale`) maps the local origin to
`(orbitRadius * cos (speed * t), 0, -orbitRadius * sin (speed * t))`, at
distance `|orbitRadius|` from the world origin for every `localScale`; with
`speed = 0` the origin goes to `(orbitRadius, 0, 0)` and, with unit scale, the
matrix is the translation by `(orbitRadius, 0, 0)`; the eight planet blocks of
the frame loop are instances of this shape; Jupiter is at `(5, 0, 0)` at time
`0` and at `(-5, 0, 0)` at time `pi / 0.4`. -/
theorem C6_orbit_position :
    (∀ (t speed orbitRadius : ℝ) (localScale : Vec3 ℝ),
      originImage (orbitModel Real.cos Real.sin Real.sqrt t speed orbitRadius localScale) =
        ⟨orbitRadius * Real.cos (speed * t), 0, -(orbitRadius * Real.sin (speed * t)), 1⟩ ∧
      (originImage (orbitModel Real.cos Real.sin Real.sqrt t speed orbitRadius localScale)).x ^ 2 +
        (originImage (orbitModel Real.cos Real.sin Real.sqrt t speed orbitRadius localScale)).y ^ 2 +
        (originImage (orbitModel Real.cos Real.sin Real.sqrt t speed orbitRadius localScale)).z ^ 2
          = orbitRadius ^ 2 ∧
      Real.sqrt
        ((originImage (orbitModel Real.cos Real.sin Real.sqrt t speed orbitRadius localScale)).x ^ 2 +
         (originImage (orbitModel Real.cos Real.sin Real.sqrt t speed orbitRadius localScale)).y ^ 2 +
         (originImage (orbitModel Real.cos Real.sin Real.sqrt t speed orbitRadius localScale)).z ^ 2)
          = |orbitRadius|) ∧
    (∀ (t orbitRadius : ℝ) (localScale : Vec3 ℝ),
      originImage (orbitModel Real.cos Real.sin Real.sqrt t 0 orbitRadius localScale) =
        ⟨orbitRadius, 0, 0, 1⟩) ∧
    (∀ (t orbitRadius : ℝ) (p : Vec3 ℝ),
      (orbitModel Real.cos Real.sin Real.sqrt t 0 orbitRadius ⟨1, 1, 1⟩).mulVec (vec4 p 1) =
        ⟨p.x + orbitRadius, p.y, p.z, 1⟩) ∧
    (∀ t : ℝ,
      mercuryModel Real.cos Real.sin Real.sqrt t =
        orbitModel Real.cos Real.sin Real.sqrt t 4 1.2 ⟨0.2, 0.2, 0.2⟩ ∧
      venusModel Real.cos Real.sin Real.sqrt t =
        orbitModel Real.cos Real.sin Real.sqrt t 1.5 2 ⟨0.3, 0.3, 0.3⟩ ∧
      earthModel Real.cos Real.sin Real.sqrt t =
        orbitModel Real.cos Real.sin Real.sqrt t 1 3 ⟨0.4, 0.4, 0.4⟩ ∧
      marsModel Real.cos Real.sin Real.sqrt t =
        orbitModel Real.cos Real.sin Real.sqrt t 0.8 4 ⟨0.3, 0.3, 0.3⟩ ∧
      jupiterModel Real.cos Real.sin Real.sqrt t =
        orbitModel Real.cos Real.sin Real.sqrt t 0.4 5 ⟨0.7, 0.7, 0.7⟩ ∧
      saturnModel Real.cos Real.sin Real.sqrt t =
        orbitModel Real.cos Real.sin Real.sqrt t 0.3 6 ⟨0.4, 0.4, 0.4⟩ ∧
      uranusModel Real.cos Real.sin Real.sqrt t =
        orbitModel Real.cos Real.sin Real.sqrt t 0.2 7 ⟨0.35, 0.35, 0.35⟩ ∧
      neptuneModel Real.cos Real.sin Real.sqrt t =
        orbitModel Real.cos Real.sin Real.sqrt t 0.1 8 ⟨0.3, 0.3, 0.3⟩) ∧
    originImage (jupiterModel Real.cos Real.sin Real.sqrt 0) = ⟨5, 0, 0, 1⟩ ∧
    originImage (jupiterModel Real.cos Real.sin Real.sqrt (Real.pi / 0.4)) = ⟨-5, 0, 0, 1⟩ := by
  have hj : ∀ t : ℝ, jupiterModel Real.cos Real.sin Real.sqrt t =
      orbitModel Real.cos Real.sin Real.sqrt t 0.4 5 ⟨0.7, 0.7, 0.7⟩ := by
    intro t; unfold jupiterModel orbitModel; norm_num
  refine ⟨?_, ?_, ?_, ?_, ?_, ?_⟩
  · intro t speed r s
    have hsq : (r * Real.cos (t * speed)) ^ 2 + (0 : ℝ) ^ 2 + (-(r * Real.sin (t * speed))) ^ 2
        = r ^ 2 := by
      have h := Real.sin_sq_add_cos_sq (t * speed)
      linear_combination r ^ 2 * h
    rw [originImage_orbitModel, mul_comm speed t]
    exact ⟨rfl, hsq, by rw [hsq, Real.sqrt_sq_eq_abs]⟩
  · intro t r s
    rw [originImage_orbitModel]
    simp
  · intro t r p
    simp [orbitModel, scale, translate, rotate, normalize, mat4One, Mat4.mulVec,
      Vec4.scale, Vec4.add, vec4]
  · intro t
    refine ⟨?_, ?_, ?_, ?_, hj t, ?_, ?_, ?_⟩
    · unfold mercuryModel orbitModel; norm_num
    · unfold venusModel orbitModel; norm_num
    · unfold earthModel orbitModel; norm_num
    · unfold marsModel orbitModel; norm_num
    · unfold saturnModel orbitModel; norm_num
    · unfold uranusModel orbitModel; norm_num
    · unfold neptuneModel orbitModel; norm_num
  · rw [hj, originImage_orbitModel]
    simp
  · rw [hj, originImage_orbitModel]
    have h : Real.pi / 0.4 * 0.4 = Real.pi := by norm_num
    rw [h]
    simp

/-- C7 (what the code does): at time `0` Earth's origin is at `(3, 0, 0)` and
the Moon's model matrix maps the Moon's local origin to `(3.6, 0, 0)`, not to
`(4.5, 0, 0)`; at every time the squared Earth-Moon distance is `0.6 ^ 2`, the
Moon's translation `1.5` shrunk by Earth's size factor `0.4`. -/
theorem C7_moon_position :
    originImage (earthModel Real.cos Real.sin Real.sqrt 0) = ⟨3, 0, 0, 1⟩ ∧
    originImage (moonModel Real.cos Real.sin Real.sqrt 0) = ⟨3.6, 0, 0, 1⟩ ∧
    originImage (moonModel Real.cos Real.sin Real.sqrt 0) ≠ ⟨4.5, 0, 0, 1⟩ ∧
    ∀ t : ℝ,
      ((originImage (moonModel Real.cos Real.sin Real.sqrt t)).x -
          (originImage (earthModel Real.cos Real.sin Real.sqrt t)).x) ^ 2 +
      ((originImage (moonModel Real.cos Real.sin Real.sqrt t)).y -
          (originImage (earthModel Real.cos Real.sin Real.sqrt t)).y) ^ 2 +
      ((originImage (moonModel Real.cos Real.sin Real.sqrt t)).z -
          (originImage (earthModel Real.cos Real.sin Real.sqrt t)).z) ^ 2 = (0.6 : ℝ) ^ 2 := by
  have hm : originImage (moonModel Real.cos Real.sin Real.sqrt 0) = ⟨3.6, 0, 0, 1⟩ := by
    simp [originImage, moonModel, earthModel, scale, translate, rotate, normalize, mat4One,
      Mat4.mulVec, Mat4.mul, Vec4.scale, Vec4.add, vec4]
    norm_num
  refine ⟨?_, hm, ?_, ?_⟩
  · simp [originImage, earthModel, scale, translate, rotate, normalize, mat4One,
      Mat4.mulVec, Vec4.scale, Vec4.add, vec4]
    norm_num
  · rw [hm]
    intro h
    have hx := congrArg Vec4.x h
    norm_num at hx
  · intro t
    have h1 := Real.sin_sq_add_cos_sq t
    have h2 := Real.sin_sq_add_cos_sq (t * 2)
    simp only [originImage, moonModel, earthModel, scale, translate, rotate, normalize, mat4One,
      Mat4.mulVec, Mat4.mul, Vec4.scale, Vec4.add, vec4]
    norm_num
    linear_combination (0.36 : ℝ) * ((Real.sin (t * 2) ^ 2 + Real.cos (t * 2) ^ 2) * h1 + h2)

end Claims

end SolarSystem
